import Mathlib

/-!
Verification development for the XPath generator module
(`xpath_generator.py`): a shallow embedding in Lean 4 of the
selector-construction and escalation pipeline, together with theorems
settling the specification claims.

Conventions of the embedding:
* Python strings are `String` / `List Char`; all scanning is done over
  `List Char`.
* The regular expressions used by the source are transcribed token by
  token into a small backtracking matcher (`Tok`, `matchToks`) whose
  constructs cover exactly the shapes appearing in the source patterns
  (single-character classes, case-insensitive literals, greedy/lazy
  class repetition, optional class characters, and the attribute-name
  shape `\w+(?:-\w+)*`).
* The Playwright page object is modelled as a `Page` record: a counting
  driver (which may fail, `Except Unit Nat`) plus the list of XPath
  strings it has been asked to count, threaded through the pipeline as
  explicit state.
* `\w`, lowercasing and `str.strip` character sets are modelled on the
  ASCII / common-Unicode subsets; `html.unescape` is modelled with
  numeric character references plus the common named entities (the full
  HTML5 named-entity table is not reproduced).
-/

set_option maxRecDepth 16384

namespace XG

/-- Characters treated as whitespace by Python `str.strip` / `str.split`
(ASCII whitespace, the C1 separators, NEL, NBSP and the Unicode space
separators). -/
def isPySpace (c : Char) : Bool :=
  c = ' ' || c = '\t' || c = '\n' || c = '\r' || c = '\x0b' || c = '\x0c' ||
  (0x1c ≤ c.toNat && c.toNat ≤ 0x1f) || c.toNat = 0x85 || c.toNat = 0xa0 ||
  c.toNat = 0x1680 || (0x2000 ≤ c.toNat && c.toNat ≤ 0x200a) ||
  c.toNat = 0x2028 || c.toNat = 0x2029 || c.toNat = 0x202f ||
  c.toNat = 0x205f || c.toNat = 0x3000

/-- Python `str.strip()` on a character list: drop leading and trailing
whitespace. -/
def pyStripL (cs : List Char) : List Char :=
  ((cs.dropWhile isPySpace).reverse.dropWhile isPySpace).reverse

/-- Python `str.strip()`. -/
def pyStrip (s : String) : String := ⟨pyStripL s.data⟩

/-- Python `str.split()` (split on whitespace runs, dropping empty
pieces): accumulator-based scanner. -/
def pyWordsGo : List Char → List Char → List (List Char)
  | [], cur => if cur = [] then [] else [cur.reverse]
  | c :: cs, cur =>
    if isPySpace c then
      if cur = [] then pyWordsGo cs [] else cur.reverse :: pyWordsGo cs []
    else pyWordsGo cs (c :: cur)

/-- Python `str.split()`. -/
def pyWords (cs : List Char) : List (List Char) := pyWordsGo cs []

/-- Python `sep.join(pieces)`. -/
def joinSep (sep : String) : List String → String
  | [] => ""
  | [x] => x
  | x :: y :: rest => x ++ sep ++ joinSep sep (y :: rest)

/-- ASCII lowercasing of one character (model of Python `str.lower`,
restricted to ASCII letters). -/
def lowerChar (c : Char) : Char :=
  if 65 ≤ c.toNat && c.toNat ≤ 90 then Char.ofNat (c.toNat + 32) else c

/-- ASCII lowercasing of a string. -/
def lowerStr (s : String) : String := ⟨s.data.map lowerChar⟩

/-- The class `\w` of the source regexes (ASCII model: letters, digits,
underscore; non-ASCII word characters are not modelled). -/
def isWordChar (c : Char) : Bool := c.isAlphanum || c = '_'

/-- The class `\s` of the source regexes (same set as `isPySpace`). -/
def isReSpace (c : Char) : Bool := isPySpace c

/-- The class `[^>]`. -/
def notGt (c : Char) : Bool := c ≠ '>'

/-- The class `[^<]`. -/
def notLt (c : Char) : Bool := c ≠ '<'

/-- The class `["\']` (either quote character). -/
def isQuoteCh (c : Char) : Bool := c = '"' || c = '\''

/-- The class `[^"\']`. -/
def notQuoteCh (c : Char) : Bool := !(isQuoteCh c)

/-- Case-insensitive literal prefix removal: if `s` starts with `l` up
to ASCII case, return the remainder. -/
def stripCI : List Char → List Char → Option (List Char)
  | [], s => some s
  | _ :: _, [] => none
  | l :: ls, c :: cs => if lowerChar c = lowerChar l then stripCI ls cs else none

/-- Matcher for the repeated hyphen groups of the attribute-name shape
`\w+(?:-\w+)*`: consume as many `-\w+` groups as possible.  Fuel-driven
(the fuel is the length of the input, always sufficient). -/
def nameHyGo : Nat → List Char → (List Char × List Char)
  | 0, cs => ([], cs)
  | fuel + 1, cs =>
    match cs with
    | '-' :: rest =>
      let w := rest.takeWhile isWordChar
      if w = [] then ([], cs)
      else
        let r := nameHyGo fuel (rest.dropWhile isWordChar)
        ('-' :: (w ++ r.1), r.2)
    | _ => ([], cs)

/-- Matcher for the attribute-name shape `\w+(?:-\w+)*` (maximal match;
the matcher never needs to backtrack into this token, because in the
attribute pattern the following `\s*=` can never match at a shorter
name: name characters are neither spaces nor `=`). -/
def matchName (cs : List Char) : Option (List Char × List Char) :=
  let w := cs.takeWhile isWordChar
  if w = [] then none
  else
    let rest := cs.dropWhile isWordChar
    let r := nameHyGo rest.length rest
    some ((w ++ r.1), r.2)

/-- Tokens of the regex subset used by the source patterns.  The `Bool`
arguments mark capturing groups. -/
inductive Tok where
  | one : (Char → Bool) → Tok
  | litCI : List Char → Tok
  | altLitCI : List (List Char) → Tok
  | starG : (Char → Bool) → Bool → Tok
  | starL : (Char → Bool) → Bool → Tok
  | plusG : (Char → Bool) → Bool → Tok
  | optG : (Char → Bool) → Tok
  | nameW : Bool → Tok

mutual

/-- Backtracking matcher: match the token list at the start of the
input, returning the captured groups (in group order) and the
remainder of the input after the match.  The recursion is driven by an
explicit fuel so that the kernel can evaluate it; entry points supply
`engineFuel`, an upper bound on the call depth, so the fuel never runs
out. -/
def matchToks : Nat → List Tok → List Char →
    Option (List (List Char) × List Char)
  | 0, _, _ => none
  | fuel + 1, toks, s =>
    match toks, s with
    | [], s => some ([], s)
    | .one _ :: _, [] => none
    | .one f :: ts, c :: s2 => if f c then matchToks fuel ts s2 else none
    | .litCI l :: ts, s =>
      match stripCI l s with
      | some s2 => matchToks fuel ts s2
      | none => none
    | .altLitCI ls :: ts, s => matchAlts fuel ls ts s
    | .starG f cap :: ts, s =>
      matchRep fuel f cap ts s ((s.takeWhile f).length) 0
    | .starL f cap :: ts, s =>
      matchLazy fuel f cap ts s 0 ((s.takeWhile f).length)
    | .plusG f cap :: ts, s =>
      let m := (s.takeWhile f).length
      if m = 0 then none else matchRep fuel f cap ts s m 1
    | .optG f :: ts, s =>
      match s with
      | c :: s2 =>
        if f c then
          match matchToks fuel ts s2 with
          | some r => some r
          | none => matchToks fuel ts s
        else matchToks fuel ts s
      | [] => matchToks fuel ts s
    | .nameW cap :: ts, s =>
      match matchName s with
      | some r =>
        (matchToks fuel ts r.2).map fun q =>
          ((if cap then [r.1] else []) ++ q.1, q.2)
      | none => none

/-- Alternation of case-insensitive literals: try each in order; on a
literal match, the rest of the pattern must also match, otherwise try
the next alternative (as the Python engine backtracks). -/
def matchAlts : Nat → List (List Char) → List Tok → List Char →
    Option (List (List Char) × List Char)
  | 0, _, _, _ => none
  | fuel + 1, ls, ts, s =>
    match ls with
    | [] => none
    | l :: ls2 =>
      match stripCI l s with
      | some s2 =>
        match matchToks fuel ts s2 with
        | some r => some r
        | none => matchAlts fuel ls2 ts s
      | none => matchAlts fuel ls2 ts s

/-- Greedy class repetition with lower bound `lo`: try consuming `k`
characters, then `k - 1`, ..., down to `lo`. -/
def matchRep : Nat → (Char → Bool) → Bool → List Tok → List Char →
    Nat → Nat → Option (List (List Char) × List Char)
  | 0, _, _, _, _, _, _ => none
  | fuel + 1, f, cap, ts, s, k, lo =>
    match matchToks fuel ts (s.drop k) with
    | some r => some ((if cap then [s.take k] else []) ++ r.1, r.2)
    | none => if k ≤ lo then none else matchRep fuel f cap ts s (k - 1) lo

/-- Lazy class repetition with upper bound `hi`: try consuming `k`
characters, then `k + 1`, ..., up to `hi`. -/
def matchLazy : Nat → (Char → Bool) → Bool → List Tok → List Char →
    Nat → Nat → Option (List (List Char) × List Char)
  | 0, _, _, _, _, _, _ => none
  | fuel + 1, f, cap, ts, s, k, hi =>
    match matchToks fuel ts (s.drop k) with
    | some r => some ((if cap then [s.take k] else []) ++ r.1, r.2)
    | none => if hi ≤ k then none else matchLazy fuel f cap ts s (k + 1) hi

end

/-- Fuel bound for the matcher, an upper bound on its call depth: along
any call path there are at most `toks.length + 1` token frames, and
between two of them at most one repetition chain (at most `s.length + 1`
frames) or one alternation chain (at most 5 alternatives in the source
patterns), plus slack. -/
def engineFuel (toks : List Tok) (s : List Char) : Nat :=
  (toks.length + 1) * (s.length + 16)

/-- Match the token list at the start of the input with sufficient
fuel. -/
def matchHere (p : List Tok) (s : List Char) :
    Option (List (List Char) × List Char) :=
  matchToks (engineFuel p s) p s

/-- Model of `re.search`: try a match at every start position, leftmost
first; return the captures of the first match. -/
def reSearch (p : List Tok) : List Char → Option (List (List Char))
  | [] => (matchHere p []).map (·.1)
  | c :: s =>
    match matchHere p (c :: s) with
    | some r => some r.1
    | none => reSearch p s

/-- Model of `re.finditer` (fuel-driven; the fuel `length + 1` is always
sufficient since every step advances by at least one character):
leftmost non-overlapping matches, returning the capture lists in
order.  A zero-width match (impossible for the source patterns) is
recorded and the scan advances one character, as in Python. -/
def reFindAllGo (p : List Tok) : Nat → List Char → List (List (List Char))
  | 0, _ => []
  | fuel + 1, s =>
    match matchHere p s with
    | some r =>
      if r.2.length < s.length then r.1 :: reFindAllGo p fuel r.2
      else
        match s with
        | [] => [r.1]
        | _ :: s2 => r.1 :: reFindAllGo p fuel s2
    | none =>
      match s with
      | [] => []
      | _ :: s2 => reFindAllGo p fuel s2

/-- Model of `re.finditer`. -/
def reFindAll (p : List Tok) (s : List Char) : List (List (List Char)) :=
  reFindAllGo p (s.length + 1) s

/-- Model of `re.sub(pattern, ' ', s)`: replace every non-overlapping
match with a single space (fuel-driven like `reFindAllGo`). -/
def reSubSpGo (p : List Tok) : Nat → List Char → List Char
  | 0, s => s
  | fuel + 1, s =>
    match matchHere p s with
    | some r =>
      if r.2.length < s.length then ' ' :: reSubSpGo p fuel r.2
      else
        match s with
        | [] => [' ']
        | c :: s2 => ' ' :: c :: reSubSpGo p fuel s2
    | none =>
      match s with
      | [] => []
      | c :: s2 => c :: reSubSpGo p fuel s2

/-- Model of `re.sub(pattern, ' ', s)`. -/
def reSubSp (p : List Tok) (s : List Char) : List Char :=
  reSubSpGo p (s.length + 1) s

/-! ## The source patterns, token by token -/

/-- `r'<(\w+)([^>]*)>'` — the first-tag pattern of `_parse_outer_html`. -/
def firstTagPat : List Tok :=
  [.one (· = '<'), .plusG isWordChar true, .starG notGt true, .one (· = '>')]

/-- `r'(\w+(?:-\w+)*)\s*=\s*["\']([^"\']*)["\']'` — the attribute
pattern of `_parse_outer_html`. -/
def attrPat : List Tok :=
  [.nameW true, .starG isReSpace false, .one (· = '='),
   .starG isReSpace false, .one isQuoteCh, .starG notQuoteCh true,
   .one isQuoteCh]

/-- `rf'<{control}[^>]*aria-label\s*=\s*["\']([^"\']*?)["\'][^>]*>'`
(IGNORECASE) — the control pattern of `_find_control_with_aria_label`
and of the first phase of `_auto_anchor_from_node`. -/
def controlAriaPat (control : String) : List Tok :=
  [.one (· = '<'), .litCI control.data, .starG notGt false,
   .litCI "aria-label".data, .starG isReSpace false, .one (· = '='),
   .starG isReSpace false, .one isQuoteCh, .starL notQuoteCh true,
   .one isQuoteCh, .starG notGt false, .one (· = '>')]

/-- `rf'<[^>]*{attr}\s*=\s*["\']([^"\']+)["\'][^>]*>'` (IGNORECASE) —
the pattern of `_find_descendant_ids_or_testids`.  Note that the
attribute name is matched as a bare substring after `[^>]*`, with no
word boundary. -/
def descAnchorPat (attr : String) : List Tok :=
  [.one (· = '<'), .starG notGt false, .litCI attr.data,
   .starG isReSpace false, .one (· = '='), .starG isReSpace false,
   .one isQuoteCh, .plusG notQuoteCh true, .one isQuoteCh,
   .starG notGt false, .one (· = '>')]

/-- `r'(?:aria-label|value|title|name|alt)\s*=\s*["\']([^"\']*?)["\']'`
(IGNORECASE) — the attribute phase of `_auto_anchor_from_node`. -/
def autoAttrPat : List Tok :=
  [.altLitCI ["aria-label".data, "value".data, "title".data,
              "name".data, "alt".data],
   .starG isReSpace false, .one (· = '='), .starG isReSpace false,
   .one isQuoteCh, .starL notQuoteCh true, .one isQuoteCh]

/-- `rf'<{tag}[^>]*>([^<]+)</{tag}>'` (IGNORECASE, DOTALL — DOTALL is
irrelevant, the pattern has no dot) — the inner-text phase of
`_auto_anchor_from_node`. -/
def innerTextPat (tag : String) : List Tok :=
  [.one (· = '<'), .litCI tag.data, .starG notGt false, .one (· = '>'),
   .plusG notLt true, .one (· = '<'), .one (· = '/'), .litCI tag.data,
   .one (· = '>')]

/-- `r'<br\s*/?>'` (IGNORECASE) — the `<br>` pattern of `_norm`. -/
def brPat : List Tok :=
  [.one (· = '<'), .litCI "br".data, .starG isReSpace false,
   .optG (· = '/'), .one (· = '>')]

/-! ## Model of `html.unescape` -/

/-- Hexadecimal digit value. -/
def hexVal? (c : Char) : Option Nat :=
  if '0' ≤ c ∧ c ≤ '9' then some (c.toNat - 48)
  else if 'a' ≤ c ∧ c ≤ 'f' then some (c.toNat - 87)
  else if 'A' ≤ c ∧ c ≤ 'F' then some (c.toNat - 70)
  else none

/-- Decimal digit test. -/
def isDecDigit (c : Char) : Bool := '0' ≤ c && c ≤ '9'

/-- Hexadecimal digit test. -/
def isHexDigit2 (c : Char) : Bool := (hexVal? c).isSome

/-- Numeric value of a hexadecimal digit string. -/
def hexValue (cs : List Char) : Nat :=
  cs.foldl (fun acc c => acc * 16 + ((hexVal? c).getD 0)) 0

/-- Numeric value of a decimal digit string. -/
def decValue (cs : List Char) : Nat :=
  cs.foldl (fun acc c => acc * 10 + (c.toNat - 48)) 0

/-- Common named HTML entities.  Model of the Python `html.unescape`
named-entity table restricted to the common entries (the full HTML5
table of over two thousand names is not reproduced; only
semicolon-terminated references are modelled). -/
def namedEnt : List (List Char × Char) :=
  [("amp".data, '&'), ("lt".data, '<'), ("gt".data, '>'),
   ("quot".data, '"'), ("apos".data, '\''), ("nbsp".data, '\xa0'),
   ("copy".data, '©'), ("reg".data, '®'), ("trade".data, '™'),
   ("hellip".data, '…'), ("mdash".data, '—'), ("ndash".data, '–')]

/-- Try to decode one character reference at the head of the input
(which follows a `&`): returns the decoded character and the remainder,
or `none` when the text after `&` is not a recognized reference. -/
def decodeEnt (cs : List Char) : Option (Char × List Char) :=
  match cs with
  | '#' :: r1 =>
    match r1 with
    | 'x' :: r2 =>
      let ds := r2.takeWhile isHexDigit2
      if ds = [] then none
      else
        let rest := r2.dropWhile isHexDigit2
        let rest := match rest with | ';' :: r3 => r3 | _ => rest
        some (Char.ofNat (hexValue ds), rest)
    | 'X' :: r2 =>
      let ds := r2.takeWhile isHexDigit2
      if ds = [] then none
      else
        let rest := r2.dropWhile isHexDigit2
        let rest := match rest with | ';' :: r3 => r3 | _ => rest
        some (Char.ofNat (hexValue ds), rest)
    | _ =>
      let ds := r1.takeWhile isDecDigit
      if ds = [] then none
      else
        let rest := r1.dropWhile isDecDigit
        let rest := match rest with | ';' :: r3 => r3 | _ => rest
        some (Char.ofNat (decValue ds), rest)
  | _ =>
    namedEnt.findSome? fun ent =>
      if cs.take (ent.1.length + 1) = ent.1 ++ [';'] then
        some (ent.2, cs.drop (ent.1.length + 1))
      else none

/-- Fuel-driven scanner for `html.unescape` (the fuel, the input
length, is always sufficient: every step consumes at least one
character). -/
def unescGo : Nat → List Char → List Char
  | 0, s => s
  | fuel + 1, s =>
    match s with
    | [] => []
    | '&' :: rest =>
      match decodeEnt rest with
      | some r => r.1 :: unescGo fuel r.2
      | none => '&' :: unescGo fuel rest
    | c :: rest => c :: unescGo fuel rest

/-- Model of Python `html.unescape` (see `namedEnt` for the modelled
named-entity subset). -/
def htmlUnescape (cs : List Char) : List Char := unescGo cs.length cs

/-- The Unicode-space character class of `_norm` (`U+00A0`,
`U+2000`..`U+200F`, `U+2028`..`U+202F`, `U+205F`, `U+3000`). -/
def isNormSpace (c : Char) : Bool :=
  c.toNat = 0xa0 || (0x2000 ≤ c.toNat && c.toNat ≤ 0x200f) ||
  (0x2028 ≤ c.toNat && c.toNat ≤ 0x202f) || c.toNat = 0x205f ||
  c.toNat = 0x3000

/-! ## The source functions -/

/-- Python truthiness of an `Optional[str]` value: `None` and the empty
string are falsy. -/
def truthy : Option String → Bool
  | none => false
  | some s => s ≠ ""

/-- `_norm`: normalize a string by replacing `<br>` tags with spaces,
decoding HTML entities, folding the Unicode space variants to ASCII
space, and collapsing whitespace runs (`' '.join(s.split())`). -/
def _norm (s : String) : String :=
  if s = "" then ""
  else
    let s1 := reSubSp brPat s.data
    let s2 := htmlUnescape s1
    let s3 := s2.map fun c => if isNormSpace c then ' ' else c
    joinSep " " ((pyWords s3).map fun w => (⟨w⟩ : String))

/-- `_xp_literal`: wrap a string as an XPath literal, doubling embedded
single quotes. -/
def escQuotes : List Char → List Char
  | [] => []
  | '\'' :: rest => '\'' :: '\'' :: escQuotes rest
  | c :: rest => c :: escQuotes rest

/-- `_xp_literal`. -/
def _xp_literal (s : String) : String :=
  if s = "" then "''"
  else "'" ++ (⟨escQuotes s.data⟩ : String) ++ "'"

/-- Attribute mappings: insertion-ordered association lists, the model
of a Python `dict` populated in scan order. -/
abbrev AttrMap := List (String × String)

/-- `attrs[key] = value`: replace in place if the key is present,
append otherwise (Python `dict` assignment). -/
def setA : AttrMap → String → String → AttrMap
  | [], k, v => [(k, v)]
  | (k0, v0) :: m, k, v =>
    if k0 = k then (k, v) :: m else (k0, v0) :: setA m k v

/-- `key in attrs` / `attrs[key]`. -/
def getA? (m : AttrMap) (k : String) : Option String :=
  (m.find? fun p => p.1 = k).map (·.2)

/-- The attribute-population loop of `_parse_outer_html`: for each
scanned `(name, value)` pair, lowercase the name and store the raw
value, skipping values that are blank after trimming (later duplicates
overwrite earlier ones). -/
def buildAttrs (pairs : List (String × String)) : AttrMap :=
  pairs.foldl
    (fun attrs p =>
      if pyStrip p.2 ≠ "" then setA attrs (lowerStr p.1) p.2 else attrs)
    []

/-- The attribute pairs scanned by `_parse_outer_html` from the
attribute region of the first tag (`re.finditer(attr_pattern, ...)`). -/
def attrPairs (attrsStr : List Char) : List (String × String) :=
  (reFindAll attrPat attrsStr).map fun caps =>
    ((⟨caps.headD []⟩ : String), (⟨(caps.drop 1).headD []⟩ : String))

/-- `_parse_outer_html`: extract the first tag name (lowercased) and
the attribute mapping from an outerHTML snippet; `(none, [])` when the
snippet is absent, blank, or contains no tag open. -/
def _parse_outer_html (snippet : Option String) : Option String × AttrMap :=
  let sv := snippet.getD ""
  if !truthy snippet || pyStrip sv = "" then (none, [])
  else
    match reSearch firstTagPat (pyStrip sv).data with
    | none => (none, [])
    | some caps =>
      let tag := lowerStr (⟨caps.headD []⟩ : String)
      let attrs := buildAttrs (attrPairs ((caps.drop 1).headD []))
      (some tag, attrs)

/-- The fixed attribute priority order of `_best_attr`. -/
def priority_order : List String :=
  ["data-testid", "data-test", "data-qa", "data-automation-id",
   "aria-label", "name", "role", "value", "title", "alt", "id"]

/-- `_best_attr`: the first attribute of the priority order that is
present with a non-blank value. -/
def _best_attr (attrs : AttrMap) : Option (String × String) :=
  priority_order.findSome? fun attr =>
    match getA? attrs attr with
    | some v => if pyStrip v ≠ "" then some (attr, v) else none
    | none => none

/-- The control-like tag list of `_find_control_with_aria_label` and
`_auto_anchor_from_node`. -/
def controls : List String :=
  ["input", "button", "a", "select", "textarea", "label"]

/-- `_find_control_with_aria_label`: the first control-like tag whose
`aria-label` value normalizes to the normalized target text. -/
def _find_control_with_aria_label (snippet target_text : String) :
    Option String :=
  if target_text = "" || snippet = "" then none
  else
    controls.findSome? fun control =>
      match reSearch (controlAriaPat control) snippet.data with
      | some caps =>
        if _norm (⟨caps.headD []⟩ : String) = _norm target_text then
          some control
        else none
      | none => none

/-- The attribute scan order of `_find_descendant_ids_or_testids`. -/
def test_attrs : List String :=
  ["id", "data-testid", "data-automation-id", "data-qa", "data-test"]

/-- `_find_descendant_ids_or_testids`: for each attribute of
`test_attrs` in order, every match of `descAnchorPat` with a non-blank
trimmed value contributes an `(attribute, trimmed value)` anchor. -/
def _find_descendant_ids_or_testids (snippet : String) :
    List (String × String) :=
  test_attrs.foldl
    (fun anchors attr =>
      anchors ++
        ((reFindAll (descAnchorPat attr) snippet.data).filterMap fun caps =>
          let value := pyStrip (⟨caps.headD []⟩ : String)
          if value ≠ "" then some (attr, value) else none))
    []

/-- The text-bearing tag list of the inner-text phase of
`_auto_anchor_from_node`. -/
def text_tags : List String := ["span", "p", "label", "a", "button", "div"]

/-- `_auto_anchor_from_node`: auto-extract an anchor text from the node
snippet (control `aria-label` first, then the other identifying
attributes, then short inner text of common tags). -/
def _auto_anchor_from_node (snippet : String) : Option String :=
  if snippet = "" then none
  else
    match
      controls.findSome? fun control =>
        match reSearch (controlAriaPat control) snippet.data with
        | some caps =>
          let text := _norm (⟨caps.headD []⟩ : String)
          if text ≠ "" then some text else none
        | none => none
    with
    | some t => some t
    | none =>
      match
        (reFindAll autoAttrPat snippet.data).findSome? fun caps =>
          let text := _norm (⟨caps.headD []⟩ : String)
          if text ≠ "" then some text else none
      with
      | some t => some t
      | none =>
        text_tags.findSome? fun tag =>
          match reSearch (innerTextPat tag) snippet.data with
          | some caps =>
            let text := _norm (⟨caps.headD []⟩ : String)
            if text ≠ "" ∧ text.length ≤ 50 then some text else none
          | none => none

/-- `_ancestor_scope`: ancestor scope expression from a tag and its
attributes. -/
def _ancestor_scope (tag : String) (attrs : AttrMap) : String :=
  match _best_attr attrs with
  | some best => "//" ++ tag ++ "[@" ++ best.1 ++ "=" ++ _xp_literal best.2 ++ "]"
  | none => "//" ++ tag

/-- `_combine`: join an ancestor scope and a base expression, stripping
one leading `//` from the base. -/
def _combine (scope base : String) : String :=
  let base2 := if base.data.take 2 = ['/', '/'] then (⟨base.data.drop 2⟩ : String) else base
  scope ++ "//" ++ base2

/-- `_build_root_with_anchor`: root expression anchored on text. -/
def _build_root_with_anchor (snippet anchor_text : String)
    (root_tag : Option String) : String :=
  if !truthy root_tag then ""
  else
    let rt := root_tag.getD ""
    let predicate :=
      match _find_control_with_aria_label snippet anchor_text with
      | some control =>
        ".//" ++ control ++ "[@aria-label=" ++ _xp_literal anchor_text ++ "]"
      | none =>
        let predicates :=
          (["aria-label", "value", "title", "name", "alt"] : List String).filterMap
            fun attr =>
              if attr ∈ (["aria-label", "value", "title", "name", "alt"] : List String) then
                some (".//*[@" ++ attr ++ "=" ++ _xp_literal anchor_text ++ "]")
              else none
        let predicates :=
          predicates ++ [".//*[normalize-space(.)=" ++ _xp_literal anchor_text ++ "]"]
        joinSep " or " predicates
    let internal_anchors := _find_descendant_ids_or_testids snippet
    let predicate :=
      if internal_anchors ≠ [] then
        let anchor_predicates :=
          (internal_anchors.take 2).map fun a =>
            ".//*[@" ++ a.1 ++ "=" ++ _xp_literal a.2 ++ "]"
        if anchor_predicates ≠ [] then
          "(" ++ predicate ++ ") and " ++ joinSep " and " anchor_predicates
        else predicate
      else predicate
    "//" ++ rt ++ "[" ++ predicate ++ "]"

/-- `_build_root_without_anchor`: root expression from the node's best
attribute. -/
def _build_root_without_anchor (tag : Option String) (attrs : AttrMap) :
    String :=
  if !truthy tag then ""
  else
    let t := tag.getD ""
    match _best_attr attrs with
    | some best => "//" ++ t ++ "[@" ++ best.1 ++ "=" ++ _xp_literal best.2 ++ "]"
    | none => "//" ++ t

/-- The external page: a counting driver (given an XPath string,
return a count or fail) plus the record of the XPath strings it has
been asked to count so far.  Explicit-state model of the Playwright
page object. -/
structure Page where
  driver : String → Except Unit Nat
  calls : List String

/-- The count the core observes from the driver: the driver's value,
with a driver failure caught and turned into 0. -/
def countVal (driver : String → Except Unit Nat) (xpath : String) : Nat :=
  match driver xpath with
  | .ok n => n
  | .error _ => 0

/-- `_count`: ask the page to count matches of an XPath, catching any
driver failure as 0; the call is recorded in the page state. -/
def _count (page : Page) (xpath : String) : Nat × Page :=
  (countVal page.driver xpath, { page with calls := page.calls ++ [xpath] })

/-- Python `min(candidates, key=lambda x: x[1])` on a non-empty list
`c :: cs`: fold keeping the accumulator on ties, so the earliest
minimal element wins. -/
def pyMinFold (c : String × Nat) (cs : List (String × Nat)) : String × Nat :=
  cs.foldl (fun acc p => if p.2 < acc.2 then p else acc) c

/-- The anchor-text determination of `choose_best_xpath` (line 50 of
the source): the caller's target text when it is truthy and non-blank
after `strip()`, otherwise the auto-extracted anchor. -/
def anchorTextOf (node_html : String) (target_text : Option String) :
    Option String :=
  if truthy target_text && pyStrip (target_text.getD "") ≠ "" then target_text
  else _auto_anchor_from_node node_html

/-- The ROOT base expression of `choose_best_xpath` (lines 52-56 of the
source). -/
def rootXpathOf (node_html : String) (target_text : Option String)
    (node_tag : Option String) (node_attrs : AttrMap) : String :=
  let anchor_text := anchorTextOf node_html target_text
  if truthy anchor_text then
    _build_root_with_anchor node_html (anchor_text.getD "") node_tag
  else
    _build_root_without_anchor node_tag node_attrs

/-- `choose_best_xpath`: the full pipeline.  The result is the pair
returned by the source function together with the final page state. -/
def choose_best_xpath (node_html : String)
    (parent_html grand_html target_text : Option String) (page : Page)
    (validate : Bool := true) :
    (Option String × List (String × Nat)) × Page :=
  let diagnostics : List (String × Nat) := []
  let parsedNode := _parse_outer_html (some node_html)
  let node_tag := parsedNode.1
  let node_attrs := parsedNode.2
  let parsedParent :=
    if truthy parent_html then _parse_outer_html parent_html
    else ((none : Option String), ([] : AttrMap))
  let parent_tag := parsedParent.1
  let parent_attrs := parsedParent.2
  let parsedGrand :=
    if truthy grand_html then _parse_outer_html grand_html
    else ((none : Option String), ([] : AttrMap))
  let grand_tag := parsedGrand.1
  let grand_attrs := parsedGrand.2
  let root_xpath := rootXpathOf node_html target_text node_tag node_attrs
  if root_xpath = "" then ((none, diagnostics), page)
  else
    -- Validate ROOT base
    let rootStep :
        Option String × List (String × Nat) × Page :=
      if validate then
        let c := _count page root_xpath
        let diagnostics := diagnostics ++ [(root_xpath, c.1)]
        (if c.1 = 1 then some root_xpath else none, diagnostics, c.2)
      else (none, diagnostics, page)
    match rootStep with
    | (some xp, diagnostics, page) => ((some xp, diagnostics), page)
    | (none, diagnostics, page) =>
      -- Try with parent scope
      let parentStep :
          Option String × String × List (String × Nat) × Page :=
        if truthy parent_tag then
          let parent_scope := _ancestor_scope (parent_tag.getD "") parent_attrs
          let parent_xpath := _combine parent_scope root_xpath
          if validate then
            let c := _count page parent_xpath
            let diagnostics := diagnostics ++ [(parent_xpath, c.1)]
            (if c.1 = 1 then some parent_xpath else none, root_xpath,
             diagnostics, c.2)
          else
            -- Update base for grandparent
            (none, parent_xpath, diagnostics, page)
        else (none, root_xpath, diagnostics, page)
      match parentStep with
      | (some xp, _, diagnostics, page) => ((some xp, diagnostics), page)
      | (none, root_xpath, diagnostics, page) =>
        -- Try with grandparent scope
        let grandStep :
            Option String × List (String × Nat) × Page :=
          if truthy grand_tag then
            let grand_scope := _ancestor_scope (grand_tag.getD "") grand_attrs
            let grand_xpath := _combine grand_scope root_xpath
            if validate then
              let c := _count page grand_xpath
              let diagnostics := diagnostics ++ [(grand_xpath, c.1)]
              (if c.1 = 1 then some grand_xpath else none, diagnostics, c.2)
            else (none, diagnostics, page)
          else (none, diagnostics, page)
        match grandStep with
        | (some xp, diagnostics, page) => ((some xp, diagnostics), page)
        | (none, diagnostics, page) =>
          -- Return best candidate (smallest positive count or None)
          if validate && !diagnostics.isEmpty then
            let positive_candidates := diagnostics.filter fun p => 0 < p.2
            match positive_candidates with
            | [] => ((none, diagnostics), page)
            | c :: cs => ((some (pyMinFold c cs).1, diagnostics), page)
          else ((none, diagnostics), page)

/-! ## Run decomposition of the validating pipeline -/

/-- The escalation candidate sequence of a run: the ROOT base
expression, then (when the parent fragment parses to a truthy tag) the
parent-scoped expression, then (when the grandparent fragment parses to
a truthy tag) the grandparent scope combined with the ROOT base (in
validating mode the base is never reassigned, so the grandparent
candidate does not include the parent scope).  Empty when no ROOT base
exists. -/
def escalationExprs (node_html : String)
    (parent_html grand_html target_text : Option String) : List String :=
  let parsedNode := _parse_outer_html (some node_html)
  let parsedParent :=
    if truthy parent_html then _parse_outer_html parent_html
    else ((none : Option String), ([] : AttrMap))
  let parsedGrand :=
    if truthy grand_html then _parse_outer_html grand_html
    else ((none : Option String), ([] : AttrMap))
  let root := rootXpathOf node_html target_text parsedNode.1 parsedNode.2
  if root = "" then []
  else
    [root] ++
    (if truthy parsedParent.1 then
      [_combine (_ancestor_scope (parsedParent.1.getD "") parsedParent.2) root]
     else []) ++
    (if truthy parsedGrand.1 then
      [_combine (_ancestor_scope (parsedGrand.1.getD "") parsedGrand.2) root]
     else [])

/-- The fallback selection of the validating pipeline: the expression of
the first diagnostics entry with minimal positive count, or `none` when
no entry has a positive count (or the diagnostics are empty). -/
def fallbackPick (diags : List (String × Nat)) : Option String :=
  if !diags.isEmpty then
    match diags.filter (fun p => 0 < p.2) with
    | [] => none
    | c :: cs => some (pyMinFold c cs).1
  else none

/-- Reference loop for the validating pipeline: count each candidate in
order, appending to the diagnostics; stop with the first candidate
whose count is 1; otherwise fall back to `fallbackPick`. -/
def runCands : List String → List (String × Nat) → Page →
    (Option String × List (String × Nat)) × Page
  | [], diags, page => ((fallbackPick diags, diags), page)
  | xp :: rest, diags, page =>
    let c := _count page xp
    let diags2 := diags ++ [(xp, c.1)]
    if c.1 = 1 then ((some xp, diags2), c.2) else runCands rest diags2 c.2

/-- The validating pipeline is the reference loop over the escalation
candidate sequence. -/
theorem choose_eq_runCands (node_html : String)
    (parent_html grand_html target_text : Option String) (page : Page) :
    choose_best_xpath node_html parent_html grand_html target_text page true =
      runCands (escalationExprs node_html parent_html grand_html target_text)
        [] page := by
  simp only [choose_best_xpath, escalationExprs]
  generalize _parse_outer_html (some node_html) = pn
  generalize (if truthy parent_html then _parse_outer_html parent_html
    else ((none : Option String), ([] : AttrMap))) = pp
  generalize (if truthy grand_html then _parse_outer_html grand_html
    else ((none : Option String), ([] : AttrMap))) = pg
  generalize rootXpathOf node_html target_text pn.1 pn.2 = r
  by_cases hr : r = ""
  · simp [hr, runCands, fallbackPick]
  · simp only [if_neg hr]
    cases hpt : truthy pp.1 <;> cases hgt : truthy pg.1 <;>
      simp only [hpt, hgt, Bool.false_eq_true, if_true, if_false,
        List.nil_append, List.singleton_append, List.append_nil] <;>
      simp only [runCands, fallbackPick] <;>
      by_cases h1 : (_count page r).1 = 1
    -- no parent tag, no grandparent tag
    · simp [h1]
    · simp [h1]
      cases hF : List.filter (fun p => decide (0 < p.2))
          [(r, (_count page r).1)] <;> simp [hF]
    -- no parent tag, grandparent tag
    · simp [h1]
    · simp [h1]
      by_cases h3 : (_count (_count page r).2
          (_combine (_ancestor_scope (pg.1.getD "") pg.2) r)).1 = 1
      · simp [h3]
      · simp [h3]
        cases hF : List.filter (fun p => decide (0 < p.2))
            [(r, (_count page r).1),
             (_combine (_ancestor_scope (pg.1.getD "") pg.2) r,
              (_count (_count page r).2
                (_combine (_ancestor_scope (pg.1.getD "") pg.2) r)).1)] <;>
          simp [hF]
    -- parent tag, no grandparent tag
    · simp [h1]
    · simp [h1]
      by_cases h2 : (_count (_count page r).2
          (_combine (_ancestor_scope (pp.1.getD "") pp.2) r)).1 = 1
      · simp [h2]
      · simp [h2]
        cases hF : List.filter (fun p => decide (0 < p.2))
            [(r, (_count page r).1),
             (_combine (_ancestor_scope (pp.1.getD "") pp.2) r,
              (_count (_count page r).2
                (_combine (_ancestor_scope (pp.1.getD "") pp.2) r)).1)] <;>
          simp [hF]
    -- parent tag and grandparent tag
    · simp [h1]
    · simp [h1]
      by_cases h2 : (_count (_count page r).2
          (_combine (_ancestor_scope (pp.1.getD "") pp.2) r)).1 = 1
      · simp [h2]
      · simp [h2]
        by_cases h3 : (_count (_count (_count page r).2
            (_combine (_ancestor_scope (pp.1.getD "") pp.2) r)).2
            (_combine (_ancestor_scope (pg.1.getD "") pg.2) r)).1 = 1
        · simp [h3]
        · simp [h3]
          cases hF : List.filter (fun p => decide (0 < p.2))
              [(r, (_count page r).1),
               (_combine (_ancestor_scope (pp.1.getD "") pp.2) r,
                (_count (_count page r).2
                  (_combine (_ancestor_scope (pp.1.getD "") pp.2) r)).1),
               (_combine (_ancestor_scope (pg.1.getD "") pg.2) r,
                (_count (_count (_count page r).2
                    (_combine (_ancestor_scope (pp.1.getD "") pp.2) r)).2
                  (_combine (_ancestor_scope (pg.1.getD "") pg.2) r)).1)] <;>
            simp [hF]

/-- Structure of a reference-loop run: the diagnostics grow by a block
`l` of entries; the counting calls are exactly the expressions of `l`;
the driver is unchanged; every appended count is the driver's caught
value; and the appended expressions are an initial segment of the
candidate list. -/
theorem runCands_spec (cs : List String) (diags : List (String × Nat))
    (page : Page) :
    ∃ l, (runCands cs diags page).1.2 = diags ++ l ∧
      (runCands cs diags page).2.calls = page.calls ++ l.map Prod.fst ∧
      (runCands cs diags page).2.driver = page.driver ∧
      (∀ e ∈ l, e.2 = countVal page.driver e.1) ∧
      l.map Prod.fst = cs.take l.length := by
  induction cs generalizing diags page with
  | nil => exact ⟨[], by simp [runCands]⟩
  | cons xp rest ih =>
    by_cases h1 : countVal page.driver xp = 1
    · exact ⟨[(xp, countVal page.driver xp)], by simp [runCands, _count, h1]⟩
    · obtain ⟨l, hd, hc, hdr, hcv, hpre⟩ :=
        ih (diags ++ [(xp, countVal page.driver xp)])
          { driver := page.driver, calls := page.calls ++ [xp] }
      refine ⟨(xp, countVal page.driver xp) :: l, ?_, ?_, ?_, ?_, ?_⟩
      · simpa [runCands, _count, h1] using hd
      · simpa [runCands, _count, h1] using hc
      · simpa [runCands, _count, h1] using hdr
      · intro e he
        rcases List.mem_cons.1 he with he | he
        · simp [he]
        · simpa using hcv e he
      · simpa [runCands, h1] using hpre

/-- A run that stops: if some diagnostics entry of the output has count
exactly 1 (and no entry of the starting diagnostics does), then the
first such entry is the last entry, and its expression is the
result. -/
theorem runCands_stop (cs : List String) (diags : List (String × Nat))
    (page : Page) (hd : ∀ e ∈ diags, e.2 ≠ 1)
    (h : ∃ e ∈ (runCands cs diags page).1.2, e.2 = 1) :
    ∃ pre e, (runCands cs diags page).1.2 = pre ++ [e] ∧ e.2 = 1 ∧
      (∀ e' ∈ pre, e'.2 ≠ 1) ∧
      (runCands cs diags page).1.1 = some e.1 := by
  induction cs generalizing diags page with
  | nil =>
    obtain ⟨e, he, h1⟩ := h
    exact absurd h1 (hd e (by simpa [runCands] using he))
  | cons xp rest ih =>
    by_cases h1 : countVal page.driver xp = 1
    · refine ⟨diags, (xp, countVal page.driver xp), ?_, h1, hd, ?_⟩ <;>
        simp [runCands, _count, h1]
    · have hd2 : ∀ e ∈ diags ++ [(xp, countVal page.driver xp)], e.2 ≠ 1 := by
        intro e he
        rcases List.mem_append.1 he with he | he
        · exact hd e he
        · simp only [List.mem_singleton] at he
          simpa [he] using h1
      have h2 : ∃ e ∈ (runCands rest (diags ++ [(xp, countVal page.driver xp)])
          { driver := page.driver, calls := page.calls ++ [xp] }).1.2,
          e.2 = 1 := by
        simpa [runCands, _count, h1] using h
      obtain ⟨pre, e, hsplit, he1, hpre, hres⟩ :=
        ih (diags ++ [(xp, countVal page.driver xp)])
          { driver := page.driver, calls := page.calls ++ [xp] } hd2 h2
      exact ⟨pre, e, by simpa [runCands, _count, h1] using hsplit, he1, hpre,
        by simpa [runCands, _count, h1] using hres⟩

/-- A run that never sees a count of 1 falls through to the fallback
selection over its own diagnostics. -/
theorem runCands_noStop (cs : List String) (diags : List (String × Nat))
    (page : Page)
    (h : ∀ e ∈ (runCands cs diags page).1.2, e.2 ≠ 1) :
    (runCands cs diags page).1.1 =
      fallbackPick ((runCands cs diags page).1.2) := by
  induction cs generalizing diags page with
  | nil => simp [runCands]
  | cons xp rest ih =>
    by_cases h1 : countVal page.driver xp = 1
    · exfalso
      have hmem : (xp, countVal page.driver xp) ∈
          (runCands (xp :: rest) diags page).1.2 := by
        simp [runCands, _count, h1]
      simpa [h1] using h _ hmem
    · have h2 : ∀ e ∈ (runCands rest (diags ++ [(xp, countVal page.driver xp)])
          { driver := page.driver, calls := page.calls ++ [xp] }).1.2,
          e.2 ≠ 1 :=
        fun e he => h e (by simpa [runCands, _count, h1] using he)
      simpa [runCands, _count, h1] using
        ih (diags ++ [(xp, countVal page.driver xp)])
          { driver := page.driver, calls := page.calls ++ [xp] } h2

/-- `pyMinFold` unfolding step. -/
theorem pyMinFold_cons (c p : String × Nat) (cs : List (String × Nat)) :
    pyMinFold c (p :: cs) = pyMinFold (if p.2 < c.2 then p else c) cs := rfl

/-- The Python minimum is an element of the list. -/
theorem pyMinFold_mem (c : String × Nat) (cs : List (String × Nat)) :
    pyMinFold c cs ∈ c :: cs := by
  induction cs generalizing c with
  | nil => simp [pyMinFold]
  | cons p rest ih =>
    rw [pyMinFold_cons]
    rcases List.mem_cons.1 (ih (if p.2 < c.2 then p else c)) with hm | hm
    · by_cases hp : p.2 < c.2 <;> simp only [hp, if_true, if_false] at hm <;>
        simp [List.mem_cons, hp, hm]
    · simp [List.mem_cons, Or.inr (Or.inr hm)]

/-- The Python minimum has a count no larger than any element's. -/
theorem pyMinFold_le (c : String × Nat) (cs : List (String × Nat)) :
    ∀ q ∈ c :: cs, (pyMinFold c cs).2 ≤ q.2 := by
  induction cs generalizing c with
  | nil => simp [pyMinFold]
  | cons p rest ih =>
    intro q hq
    rw [pyMinFold_cons]
    have hle : (pyMinFold (if p.2 < c.2 then p else c) rest).2 ≤
        (if p.2 < c.2 then p else c).2 :=
      ih _ _ (List.mem_cons_self _ _)
    simp only [List.mem_cons] at hq
    rcases hq with hq | hq | hq
    · rw [hq]
      by_cases hp : p.2 < c.2
      · exact le_trans hle (by simp [hp]; omega)
      · exact le_trans hle (by simp [hp])
    · rw [hq]
      by_cases hp : p.2 < c.2
      · exact le_trans hle (by simp [hp])
      · exact le_trans hle (by simp [hp]; omega)
    · exact ih _ q (List.mem_cons_of_mem _ hq)

/-- The Python minimum is the first element attaining the minimal
count: all strictly earlier elements have strictly larger counts. -/
theorem pyMinFold_first (c : String × Nat) (cs : List (String × Nat)) :
    ∃ l1 l2, c :: cs = l1 ++ pyMinFold c cs :: l2 ∧
      ∀ q ∈ l1, (pyMinFold c cs).2 < q.2 := by
  induction cs generalizing c with
  | nil => exact ⟨[], [], by simp [pyMinFold], by simp⟩
  | cons p rest ih =>
    rw [pyMinFold_cons]
    obtain ⟨l1, l2, hsplit, hl1⟩ := ih (if p.2 < c.2 then p else c)
    by_cases hp : p.2 < c.2
    · simp only [hp, if_true] at hsplit hl1 ⊢
      refine ⟨c :: l1, l2, by simpa using hsplit, ?_⟩
      intro q hq
      simp only [List.mem_cons] at hq
      rcases hq with hq | hq
      · have := pyMinFold_le p rest p (List.mem_cons_self _ _)
        rw [hq]
        omega
      · exact hl1 q hq
    · simp only [hp, if_false] at hsplit hl1 ⊢
      rcases l1 with _ | ⟨q0, l1'⟩
      · simp only [List.nil_append, List.cons.injEq] at hsplit
        refine ⟨[], p :: rest, ?_, by simp⟩
        rw [List.nil_append, ← hsplit.1]
      · simp only [List.cons_append, List.cons.injEq] at hsplit
        obtain ⟨hq0, hrest⟩ := hsplit
        have hcmin : (pyMinFold c rest).2 < c.2 := by
          have hh := hl1 q0 (List.mem_cons_self _ _)
          rw [← hq0] at hh
          exact hh
        refine ⟨c :: p :: l1', l2, ?_, ?_⟩
        · conv_lhs => rw [hrest]
          simp [List.cons_append]
        · intro q hq
          simp only [List.mem_cons] at hq
          rcases hq with hq | hq | hq
          · rw [hq]; exact hcmin
          · rw [hq]; omega
          · exact hl1 q (List.mem_cons_of_mem _ hq)

/-- The escalation candidate sequence never has more than 3 entries. -/
theorem escalationExprs_length_le (node_html : String)
    (parent_html grand_html target_text : Option String) :
    (escalationExprs node_html parent_html grand_html target_text).length
      ≤ 3 := by
  simp only [escalationExprs]
  split_ifs <;> simp

/-! ## Claim theorems -/

/-- Claim C2, counterexample: with parent and grandparent fragments
supplied and no candidate unique, the third diagnostics entry is the
grandparent scope composed with the node-only expression — not the
node+parent+grandparent composition that the claim describes. -/
theorem c2_counterexample :
    (choose_best_xpath "<div id=\"a\">" (some "<p id=\"b\">")
        (some "<section id=\"c\">") none
        { driver := fun _ => Except.ok 2, calls := [] } true).1.2 =
      [("//div[@id='a']", 2), ("//p[@id='b']//div[@id='a']", 2),
       ("//section[@id='c']//div[@id='a']", 2)] ∧
    ("//section[@id='c']//div[@id='a']" : String) ≠
      _combine (_ancestor_scope "section" [("id", "c")])
        (_combine (_ancestor_scope "p" [("id", "b")]) "//div[@id='a']") := by
  constructor <;> decide

/-- Claim C2, amended: in every validating run the diagnostics sequence
has at most 3 entries, and its expressions are, in order, an initial
segment of the escalation candidate sequence — node-only, then
node+parent (if the parent fragment parses to a tag), then the
grandparent scope composed with the node-only expression (if the
grandparent fragment parses to a tag; the parent scope is not carried
into the third entry) — never reordered or mutated. -/
theorem c2_escalation_order (node_html : String)
    (parent_html grand_html target_text : Option String) (page : Page) :
    ((choose_best_xpath node_html parent_html grand_html target_text page
        true).1.2).length ≤ 3 ∧
    ∃ t, ((choose_best_xpath node_html parent_html grand_html target_text
        page true).1.2).map Prod.fst ++ t =
      escalationExprs node_html parent_html grand_html target_text := by
  rw [choose_eq_runCands]
  obtain ⟨l, hd, _, _, _, hpre⟩ :=
    runCands_spec
      (escalationExprs node_html parent_html grand_html target_text) [] page
  rw [hd]
  simp only [List.nil_append]
  constructor
  · have h1 : (l.map Prod.fst).length =
        ((escalationExprs node_html parent_html grand_html
          target_text).take l.length).length := by rw [hpre]
    simp only [List.length_map, List.length_take] at h1
    have h2 := escalationExprs_length_le node_html parent_html grand_html
      target_text
    omega
  · refine ⟨(escalationExprs node_html parent_html grand_html
      target_text).drop l.length, ?_⟩
    rw [hpre, List.take_append_drop]

/-- Claim C5: in a validating run, as soon as a candidate's count is 1
that candidate's expression is the result, the diagnostics end at that
entry (all earlier entries have count other than 1), and the counting
calls made are exactly the diagnostics entries' expressions — nothing
further is counted. -/
theorem c5_first_unique_stops (node_html : String)
    (parent_html grand_html target_text : Option String) (page : Page)
    (h : ∃ e ∈ (choose_best_xpath node_html parent_html grand_html
        target_text page true).1.2, e.2 = 1) :
    ∃ pre e, (choose_best_xpath node_html parent_html grand_html
        target_text page true).1.2 = pre ++ [e] ∧ e.2 = 1 ∧
      (∀ e2 ∈ pre, e2.2 ≠ 1) ∧
      (choose_best_xpath node_html parent_html grand_html target_text page
        true).1.1 = some e.1 ∧
      (choose_best_xpath node_html parent_html grand_html target_text page
        true).2.calls = page.calls ++
        ((choose_best_xpath node_html parent_html grand_html target_text
          page true).1.2).map Prod.fst := by
  rw [choose_eq_runCands] at h ⊢
  obtain ⟨pre, e, hs, h1, hp, hr⟩ :=
    runCands_stop
      (escalationExprs node_html parent_html grand_html target_text) []
      page (by simp) h
  obtain ⟨l, hd, hc, _, _, _⟩ :=
    runCands_spec
      (escalationExprs node_html parent_html grand_html target_text) []
      page
  refine ⟨pre, e, hs, h1, hp, hr, ?_⟩
  rw [hd]
  simpa using hc

/-- Witness for C5: a driver that reports 1 for the first candidate. -/
theorem c5_witness :
    (∃ e ∈ (choose_best_xpath "<div id=\"a\">" none none none
        { driver := fun _ => Except.ok 1, calls := [] } true).1.2,
      e.2 = 1) ∧
    ∃ pre e, (choose_best_xpath "<div id=\"a\">" none none none
        { driver := fun _ => Except.ok 1, calls := [] } true).1.2 =
        pre ++ [e] ∧ e.2 = 1 ∧
      (∀ e2 ∈ pre, e2.2 ≠ 1) ∧
      (choose_best_xpath "<div id=\"a\">" none none none
        { driver := fun _ => Except.ok 1, calls := [] } true).1.1 =
        some e.1 ∧
      (choose_best_xpath "<div id=\"a\">" none none none
        { driver := fun _ => Except.ok 1, calls := [] } true).2.calls =
        ({ driver := fun _ => Except.ok 1, calls := [] } : Page).calls ++
        ((choose_best_xpath "<div id=\"a\">" none none none
          { driver := fun _ => Except.ok 1, calls := [] } true).1.2).map
          Prod.fst :=
  ⟨by decide,
   c5_first_unique_stops "<div id=\"a\">" none none none
     { driver := fun _ => Except.ok 1, calls := [] } (by decide)⟩

/-- Claim C4: in a validating run where no diagnostics entry has count
exactly 1: if no entry has a positive count the result is absent (the
diagnostics are still returned alongside); otherwise the result is the
expression of the earliest diagnostics entry among those with minimal
positive count. -/
theorem c4_fallback_smallest_positive (node_html : String)
    (parent_html grand_html target_text : Option String) (page : Page)
    (h : ∀ e ∈ (choose_best_xpath node_html parent_html grand_html
        target_text page true).1.2, e.2 ≠ 1) :
    (((choose_best_xpath node_html parent_html grand_html target_text page
        true).1.2).filter (fun p => 0 < p.2) = [] →
      (choose_best_xpath node_html parent_html grand_html target_text page
        true).1.1 = none) ∧
    (∀ c cs, ((choose_best_xpath node_html parent_html grand_html
        target_text page true).1.2).filter (fun p => 0 < p.2) = c :: cs →
      ∃ b l1 l2, (choose_best_xpath node_html parent_html grand_html
          target_text page true).1.1 = some b.1 ∧
        c :: cs = l1 ++ b :: l2 ∧ (∀ q ∈ c :: cs, b.2 ≤ q.2) ∧
        ∀ q ∈ l1, b.2 < q.2) := by
  rw [choose_eq_runCands] at h ⊢
  have hres := runCands_noStop
    (escalationExprs node_html parent_html grand_html target_text) [] page h
  constructor
  · intro hf
    rw [hres]
    unfold fallbackPick
    rw [hf]
    split <;> rfl
  · intro c cs hf
    rw [hres]
    have hne : ((runCands (escalationExprs node_html parent_html grand_html
        target_text) [] page).1.2).isEmpty = false := by
      cases hdg : (runCands (escalationExprs node_html parent_html
          grand_html target_text) [] page).1.2 with
      | nil => rw [hdg] at hf; simp at hf
      | cons a l => simp
    unfold fallbackPick
    rw [hne, hf]
    simp only [Bool.not_false, if_true]
    obtain ⟨l1, l2, hsp, hfirst⟩ := pyMinFold_first c cs
    exact ⟨pyMinFold c cs, l1, l2, rfl, hsp, pyMinFold_le c cs, hfirst⟩

/-- A scripted page for the C4 witness: the node-only candidate counts
2, every other candidate counts 3. -/
def pageC4 : Page :=
  { driver := fun s =>
      if s = "//div[@id='a']" then Except.ok 2 else Except.ok 3,
    calls := [] }

/-- Witness for C4: counts 2 then 3, no unique candidate; the fallback
returns the first (node-only) entry. -/
theorem c4_witness :
    (∀ e ∈ (choose_best_xpath "<div id=\"a\">" (some "<p id=\"b\">") none
        none pageC4 true).1.2, e.2 ≠ 1) ∧
    ((((choose_best_xpath "<div id=\"a\">" (some "<p id=\"b\">") none none
        pageC4 true).1.2).filter (fun p => 0 < p.2) = [] →
      (choose_best_xpath "<div id=\"a\">" (some "<p id=\"b\">") none none
        pageC4 true).1.1 = none) ∧
    (∀ c cs, ((choose_best_xpath "<div id=\"a\">" (some "<p id=\"b\">")
        none none pageC4 true).1.2).filter (fun p => 0 < p.2) = c :: cs →
      ∃ b l1 l2, (choose_best_xpath "<div id=\"a\">" (some "<p id=\"b\">")
          none none pageC4 true).1.1 = some b.1 ∧
        c :: cs = l1 ++ b :: l2 ∧ (∀ q ∈ c :: cs, b.2 ≤ q.2) ∧
        ∀ q ∈ l1, b.2 < q.2)) :=
  ⟨by decide,
   c4_fallback_smallest_positive "<div id=\"a\">" (some "<p id=\"b\">")
     none none pageC4 (by decide)⟩

/-- Claim C7: in a validating run, a candidate whose counting the
driver fails is recorded in the diagnostics with count 0 (the failure
is caught, not propagated). -/
theorem c7_driver_failure_counts_zero (node_html : String)
    (parent_html grand_html target_text : Option String) (page : Page)
    (e : String × Nat)
    (he : e ∈ (choose_best_xpath node_html parent_html grand_html
        target_text page true).1.2)
    (hfail : page.driver e.1 = Except.error ()) :
    e.2 = 0 := by
  rw [choose_eq_runCands] at he
  obtain ⟨l, hd, _, _, hcv, _⟩ := runCands_spec
    (escalationExprs node_html parent_html grand_html target_text) [] page
  rw [hd] at he
  simp only [List.nil_append] at he
  rw [hcv e he]
  simp [countVal, hfail]

/-- Witness for C7: a driver that always fails; the single candidate is
recorded with count 0 and the run returns no expression. -/
theorem c7_witness :
    (("//div[@id='a']", 0) ∈ (choose_best_xpath "<div id=\"a\">" none none
        none { driver := fun _ => Except.error (), calls := [] }
        true).1.2) ∧
    (("//div[@id='a']", 0) : String × Nat).2 = 0 :=
  ⟨by decide,
   c7_driver_failure_counts_zero "<div id=\"a\">" none none none
     { driver := fun _ => Except.error (), calls := [] }
     ("//div[@id='a']", 0) (by decide) rfl⟩

/-- Claim C8: when the node fragment parses to no tag (absent, blank or
no tag open), the pipeline returns an absent expression with empty
diagnostics, leaves the page untouched (no counting), and this holds in
both validating and non-validating mode. -/
theorem c8_unparseable_node (node_html : String)
    (parent_html grand_html target_text : Option String) (page : Page)
    (validate : Bool)
    (h : (_parse_outer_html (some node_html)).1 = none) :
    choose_best_xpath node_html parent_html grand_html target_text page
      validate = ((none, []), page) := by
  have hroot : rootXpathOf node_html target_text
      (_parse_outer_html (some node_html)).1
      (_parse_outer_html (some node_html)).2 = "" := by
    rw [h]
    simp only [rootXpathOf]
    split <;> simp [_build_root_with_anchor, _build_root_without_anchor,
      truthy]
  simp only [choose_best_xpath]
  rw [hroot]
  simp

/-- Witness for C8: a fragment with no tag open. -/
theorem c8_witness :
    (_parse_outer_html (some "no tags here")).1 = none ∧
    choose_best_xpath "no tags here" none none none
      { driver := fun _ => Except.ok 7, calls := [] } true =
      ((none, []), { driver := fun _ => Except.ok 7, calls := [] }) :=
  ⟨by decide,
   c8_unparseable_node "no tags here" none none none
     { driver := fun _ => Except.ok 7, calls := [] } true (by decide)⟩

/-- Claim C10: a supplied parent (resp. grandparent) fragment that
parses to no tag is silently skipped: the run is identical to the run
with that fragment absent — no candidate, no diagnostics entry, no
error. -/
theorem c10_unparseable_ancestors_skipped :
    (∀ (node_html pj : String) (grand_html target_text : Option String)
        (page : Page) (v : Bool),
      _parse_outer_html (some pj) = (none, []) →
      choose_best_xpath node_html (some pj) grand_html target_text page v =
        choose_best_xpath node_html none grand_html target_text page v) ∧
    (∀ (node_html gj : String) (parent_html target_text : Option String)
        (page : Page) (v : Bool),
      _parse_outer_html (some gj) = (none, []) →
      choose_best_xpath node_html parent_html (some gj) target_text page v =
        choose_best_xpath node_html parent_html none target_text page v) := by
  constructor
  · intro node pj grand tt page v h
    have hp : (if truthy (some pj) then _parse_outer_html (some pj)
        else ((none : Option String), ([] : AttrMap))) =
        (if truthy (none : Option String) then _parse_outer_html none
        else ((none : Option String), ([] : AttrMap))) := by
      simp [h, truthy]
    simp only [choose_best_xpath]
    rw [hp]
  · intro node gj parent tt page v h
    have hg : (if truthy (some gj) then _parse_outer_html (some gj)
        else ((none : Option String), ([] : AttrMap))) =
        (if truthy (none : Option String) then _parse_outer_html none
        else ((none : Option String), ([] : AttrMap))) := by
      simp [h, truthy]
    simp only [choose_best_xpath]
    rw [hg]

/-- Witness for C10: a parent and a grandparent fragment with no tag
open are skipped. -/
theorem c10_witness :
    (_parse_outer_html (some "just text") = (none, []) ∧
      choose_best_xpath "<div id=\"a\">" (some "just text") none none
        { driver := fun _ => Except.ok 2, calls := [] } true =
        choose_best_xpath "<div id=\"a\">" none none none
          { driver := fun _ => Except.ok 2, calls := [] } true) ∧
    (_parse_outer_html (some "just text") = (none, []) ∧
      choose_best_xpath "<div id=\"a\">" none (some "just text") none
        { driver := fun _ => Except.ok 2, calls := [] } true =
        choose_best_xpath "<div id=\"a\">" none none none
          { driver := fun _ => Except.ok 2, calls := [] } true) :=
  ⟨⟨by decide,
    c10_unparseable_ancestors_skipped.1 "<div id=\"a\">" "just text" none
      none { driver := fun _ => Except.ok 2, calls := [] } true
      (by decide)⟩,
   ⟨by decide,
    c10_unparseable_ancestors_skipped.2 "<div id=\"a\">" "just text" none
      none { driver := fun _ => Except.ok 2, calls := [] } true
      (by decide)⟩⟩

/-- Claim C1 (code bug): with validation disabled the node fragment
yields a ROOT expression, yet the pipeline returns no expression — the
composed base is computed and discarded and the final return yields
`(none, [])`; the diagnostics are empty and the counting capability is
never invoked (the page is returned untouched). -/
theorem c1_validate_disabled_returns_none :
    rootXpathOf "<div id=\"a\">" none (some "div") [("id", "a")] =
      "//div[@id='a']" ∧
    _parse_outer_html (some "<div id=\"a\">") = (some "div", [("id", "a")]) ∧
    choose_best_xpath "<div id=\"a\">" (some "<p class=\"c\">") none none
      { driver := fun _ => Except.ok 5, calls := [] } false =
      ((none, []), { driver := fun _ => Except.ok 5, calls := [] }) :=
  ⟨by decide, by decide, rfl⟩

/-- Claim C9: the descendant-anchor scan matches attribute names as
bare substrings — a node carrying only `data-testid="x"` also yields an
`(id, x)` anchor (from the same attribute occurrence), and the
with-anchor builder conjoins both an `@id` clause and a `@data-testid`
clause onto the core predicate. -/
theorem c9_substring_scan_and_conjunction :
    _find_descendant_ids_or_testids "<div data-testid=\"x\">" =
      [("id", "x"), ("data-testid", "x")] ∧
    _build_root_with_anchor "<div data-testid=\"x\">" "Hi" (some "div") =
      "//div[(.//*[@aria-label='Hi'] or .//*[@value='Hi'] or " ++
      ".//*[@title='Hi'] or .//*[@name='Hi'] or .//*[@alt='Hi'] or " ++
      ".//*[normalize-space(.)='Hi']) and .//*[@id='x'] and " ++
      ".//*[@data-testid='x']]" := by
  constructor <;> decide

/-! ## Containment helpers (for the anchor-literal placement claims) -/

/-- Containment is preserved by prepending. -/
theorem containsAppendL (a l sub : List Char)
    (h : ∃ pre post, l = pre ++ sub ++ post) :
    ∃ pre post, a ++ l = pre ++ sub ++ post := by
  obtain ⟨pre, post, rfl⟩ := h
  exact ⟨a ++ pre, post, by simp⟩

/-- Containment is preserved by appending. -/
theorem containsAppendR (l b sub : List Char)
    (h : ∃ pre post, l = pre ++ sub ++ post) :
    ∃ pre post, l ++ b = pre ++ sub ++ post := by
  obtain ⟨pre, post, rfl⟩ := h
  exact ⟨pre, post ++ b, by simp⟩

/-- If some element of the list contains `sub`, so does the joined
string. -/
theorem joinSep_contains (sep : String) (l : List String) (x : String)
    (hx : x ∈ l) (sub : List Char)
    (h : ∃ pre post, x.data = pre ++ sub ++ post) :
    ∃ pre post, (joinSep sep l).data = pre ++ sub ++ post := by
  induction l with
  | nil => simp at hx
  | cons y rest ih =>
    rcases List.mem_cons.1 hx with hx | hx
    · subst hx
      cases rest with
      | nil => simpa [joinSep] using h
      | cons z rest2 =>
        simp only [joinSep, String.data_append]
        exact containsAppendR _ _ _ (containsAppendR _ _ _ h)
    · cases rest with
      | nil => simp at hx
      | cons z rest2 =>
        simp only [joinSep, String.data_append]
        exact containsAppendL _ _ _ (by simpa [joinSep] using ih hx)

/-- The with-anchor builder always embeds the XPath literal of the
anchor string it is given, verbatim, into the produced expression. -/
theorem buildWithAnchor_embeds_literal (snippet a rt : String)
    (hrt : rt ≠ "") :
    ∃ pre post, (_build_root_with_anchor snippet a (some rt)).data =
      pre ++ (_xp_literal a).data ++ post := by
  have htr : truthy (some rt) = true := by simp [truthy, hrt]
  rcases hctl : _find_control_with_aria_label snippet a with _ | control
  · have hpred : ∃ pre post,
        (joinSep " or "
          (((["aria-label", "value", "title", "name", "alt"] :
              List String).filterMap fun attr =>
            if attr ∈ (["aria-label", "value", "title", "name", "alt"] :
                List String) then
              some (".//*[@" ++ attr ++ "=" ++ _xp_literal a ++ "]")
            else none) ++
           [".//*[normalize-space(.)=" ++ _xp_literal a ++ "]"])).data =
        pre ++ (_xp_literal a).data ++ post := by
      refine joinSep_contains _ _
        (".//*[@aria-label=" ++ _xp_literal a ++ "]") (by simp) _ ?_
      refine ⟨".//*[@aria-label=".data, "]".data, ?_⟩
      simp [String.data_append]
    simp only [_build_root_with_anchor, htr, Bool.not_true,
      Bool.false_eq_true, if_false, hctl]
    by_cases hia : _find_descendant_ids_or_testids snippet = []
    · rw [if_neg (by simp [hia])]
      simp only [String.data_append]
      exact containsAppendR _ _ _ (containsAppendL _ _ _ hpred)
    · rw [if_pos hia]
      by_cases hap : ((_find_descendant_ids_or_testids snippet).take 2).map
          (fun p => ".//*[@" ++ p.1 ++ "=" ++ _xp_literal p.2 ++ "]") = []
      · rw [if_neg (by simp [hap])]
        simp only [String.data_append]
        exact containsAppendR _ _ _ (containsAppendL _ _ _ hpred)
      · rw [if_pos hap]
        simp only [String.data_append]
        exact containsAppendR _ _ _ (containsAppendL _ _ _
          (containsAppendR _ _ _ (containsAppendR _ _ _
            (containsAppendL _ _ _ hpred))))
  · have hpred : ∃ pre post,
        ((".//" ++ control ++ "[@aria-label=" ++ _xp_literal a ++
          "]")).data = pre ++ (_xp_literal a).data ++ post := by
      refine ⟨(".//" ++ control ++ "[@aria-label=").data, "]".data, ?_⟩
      simp [String.data_append]
    simp only [_build_root_with_anchor, htr, Bool.not_true,
      Bool.false_eq_true, if_false, hctl]
    by_cases hia : _find_descendant_ids_or_testids snippet = []
    · rw [if_neg (by simp [hia])]
      simp only [String.data_append]
      exact containsAppendR _ _ _ (containsAppendL _ _ _ hpred)
    · rw [if_pos hia]
      by_cases hap : ((_find_descendant_ids_or_testids snippet).take 2).map
          (fun p => ".//*[@" ++ p.1 ++ "=" ++ _xp_literal p.2 ++ "]") = []
      · rw [if_neg (by simp [hap])]
        simp only [String.data_append]
        exact containsAppendR _ _ _ (containsAppendL _ _ _ hpred)
      · rw [if_pos hap]
        simp only [String.data_append]
        exact containsAppendR _ _ _ (containsAppendL _ _ _
          (containsAppendR _ _ _ (containsAppendR _ _ _
            (containsAppendL _ _ _ hpred))))

/-- Claim C3, counterexample: the caller-supplied target text `&nbsp;`
normalizes to the empty string, so under the claim it would not be
taken as the anchor (the no-anchor root would be `//div[@id='k']`, and
any placed anchor would be in normalized form); the code instead takes
the target verbatim and bakes the raw `&nbsp;` into the produced
expression. -/
theorem c3_counterexample :
    _norm "&nbsp;" = "" ∧
    (choose_best_xpath "<div id=\"k\">" none none (some "&nbsp;")
        { driver := fun _ => Except.ok 1, calls := [] } true).1.1 =
      some ("//div[(.//*[@aria-label='&nbsp;'] or .//*[@value='&nbsp;'] " ++
        "or .//*[@title='&nbsp;'] or .//*[@name='&nbsp;'] or " ++
        ".//*[@alt='&nbsp;'] or .//*[normalize-space(.)='&nbsp;']) and " ++
        ".//*[@id='k']]") ∧
    _build_root_without_anchor (some "div") [("id", "k")] =
      "//div[@id='k']" :=
  ⟨by decide, by decide, by decide⟩

/-- Claim C3, amended: caller-supplied target text is taken as the
anchor exactly when it is truthy and non-blank after `strip()` (not
when it normalizes to non-empty), and it is placed into the generated
predicates verbatim — the raw string's XPath literal, not its
normalized form, is embedded in the ROOT expression. -/
theorem c3_target_text_taken_verbatim (node_html tt rt : String)
    (attrs : AttrMap) (h : pyStrip tt ≠ "") (hrt : rt ≠ "") :
    anchorTextOf node_html (some tt) = some tt ∧
    rootXpathOf node_html (some tt) (some rt) attrs =
      _build_root_with_anchor node_html tt (some rt) ∧
    ∃ pre post, (rootXpathOf node_html (some tt) (some rt) attrs).data =
      pre ++ (_xp_literal tt).data ++ post := by
  have htt : tt ≠ "" := fun h0 => h (by rw [h0]; rfl)
  have hanchor : anchorTextOf node_html (some tt) = some tt := by
    simp [anchorTextOf, truthy, htt, h]
  have hroot : rootXpathOf node_html (some tt) (some rt) attrs =
      _build_root_with_anchor node_html tt (some rt) := by
    simp only [rootXpathOf, hanchor]
    simp [truthy, htt]
  refine ⟨hanchor, hroot, ?_⟩
  rw [hroot]
  exact buildWithAnchor_embeds_literal node_html tt rt hrt

/-- Witness for C3 (amended): the target `a  b` (double space, blank
neither before nor after strip) is used as the anchor verbatim. -/
theorem c3_witness :
    (pyStrip "a  b" ≠ "" ∧ ("div" : String) ≠ "") ∧
    (anchorTextOf "<div>" (some "a  b") = some "a  b" ∧
     rootXpathOf "<div>" (some "a  b") (some "div") [] =
       _build_root_with_anchor "<div>" "a  b" (some "div") ∧
     ∃ pre post, (rootXpathOf "<div>" (some "a  b") (some "div") []).data =
       pre ++ (_xp_literal "a  b").data ++ post) :=
  ⟨⟨by decide, by decide⟩,
   c3_target_text_taken_verbatim "<div>" "a  b" "div" [] (by decide)
     (by decide)⟩

/-! ## Attribute-map lemmas (for the parser claims) -/

/-- Lookup in a cons cell. -/
theorem getA_cons (p : String × String) (m : AttrMap) (k : String) :
    getA? (p :: m) k = if p.1 = k then some p.2 else getA? m k := by
  by_cases hk : p.1 = k <;> simp [getA?, List.find?_cons, hk]

/-- An element of the updated map is the new pair or an old element. -/
theorem mem_setA (m : AttrMap) (k v : String) (kv : String × String)
    (h : kv ∈ setA m k v) : kv = (k, v) ∨ kv ∈ m := by
  induction m with
  | nil => simpa [setA] using h
  | cons p m ih =>
    obtain ⟨k0, v0⟩ := p
    by_cases hk : k0 = k
    · rw [show setA ((k0, v0) :: m) k v = (k, v) :: m from by
        simp [setA, hk]] at h
      rcases List.mem_cons.1 h with h | h
      · exact Or.inl h
      · exact Or.inr (List.mem_cons_of_mem _ h)
    · rw [show setA ((k0, v0) :: m) k v = (k0, v0) :: setA m k v from by
        simp [setA, hk]] at h
      rcases List.mem_cons.1 h with h | h
      · exact Or.inr (by simp [h])
      · rcases ih h with h | h
        · exact Or.inl h
        · exact Or.inr (List.mem_cons_of_mem _ h)

/-- Lookup after writing the same key. -/
theorem getA_setA_self (m : AttrMap) (k v : String) :
    getA? (setA m k v) k = some v := by
  induction m with
  | nil => simp [setA, getA_cons]
  | cons p m ih =>
    obtain ⟨k0, v0⟩ := p
    by_cases hk : k0 = k
    · rw [show setA ((k0, v0) :: m) k v = (k, v) :: m from by
        simp [setA, hk], getA_cons]
      simp
    · rw [show setA ((k0, v0) :: m) k v = (k0, v0) :: setA m k v from by
        simp [setA, hk], getA_cons]
      simp [hk, ih]

/-- Lookup after writing a different key. -/
theorem getA_setA_ne (m : AttrMap) (k v k2 : String) (h : k ≠ k2) :
    getA? (setA m k v) k2 = getA? m k2 := by
  induction m with
  | nil => simp [setA, getA_cons, h]
  | cons p m ih =>
    obtain ⟨k0, v0⟩ := p
    by_cases hk : k0 = k
    · rw [show setA ((k0, v0) :: m) k v = (k, v) :: m from by
        simp [setA, hk], getA_cons, getA_cons]
      simp [h, hk]
    · rw [show setA ((k0, v0) :: m) k v = (k0, v0) :: setA m k v from by
        simp [setA, hk], getA_cons, getA_cons]
      rw [ih]

/-- The head of a cons does not affect `getLast?` when the tail is
non-empty. -/
theorem getLast?_cons_ne {α : Type} (a : α) (l : List α) (h : l ≠ []) :
    (a :: l).getLast? = l.getLast? := by
  cases l with
  | nil => exact absurd rfl h
  | cons b t => exact List.getLast?_cons_cons

/-- A non-empty list has a last element. -/
theorem getLast?_cons_isSome {α : Type} (y : α) (t : List α) :
    ((y :: t).getLast?).isSome := by
  induction t generalizing y with
  | nil => simp
  | cons z t ih =>
    rw [List.getLast?_cons_cons]
    exact ih z

/-- The attribute-population loop, seen through lookup: the stored
value for a key is the raw value of the last scanned pair whose
lowercased name is that key and whose value is non-blank (last write
wins); otherwise the accumulator's binding. -/
theorem getA_buildAttrsFrom (pairs : List (String × String)) (m : AttrMap)
    (k : String) :
    getA? (pairs.foldl (fun attrs p =>
        if pyStrip p.2 ≠ "" then setA attrs (lowerStr p.1) p.2 else attrs)
      m) k =
    match (pairs.filter fun p =>
        lowerStr p.1 = k ∧ pyStrip p.2 ≠ "").getLast? with
    | some q => some q.2
    | none => getA? m k := by
  induction pairs generalizing m with
  | nil => simp
  | cons p rest ih =>
    simp only [List.foldl_cons]
    rw [ih]
    by_cases hcond : lowerStr p.1 = k ∧ pyStrip p.2 ≠ ""
    · rw [List.filter_cons_of_pos (by simpa using hcond)]
      cases hl : (rest.filter fun p =>
          lowerStr p.1 = k ∧ pyStrip p.2 ≠ "").getLast? with
      | some q =>
        have hne : (rest.filter fun p =>
            lowerStr p.1 = k ∧ pyStrip p.2 ≠ "") ≠ [] := by
          intro h0
          rw [h0] at hl
          simp at hl
        rw [getLast?_cons_ne _ _ hne, hl]
      | none =>
        have hnil : (rest.filter fun p =>
            lowerStr p.1 = k ∧ pyStrip p.2 ≠ "") = [] := by
          cases hfe : (rest.filter fun p =>
              lowerStr p.1 = k ∧ pyStrip p.2 ≠ "") with
          | nil => rfl
          | cons x t =>
            rw [hfe] at hl
            rcases t with _ | ⟨y, t2⟩
            · simp at hl
            · rw [List.getLast?_cons_cons] at hl
              have h2 := getLast?_cons_isSome y t2
              rw [hl] at h2
              simp at h2
        rw [hnil]
        simp only [List.getLast?, List.getLast]
        rw [if_pos hcond.2, hcond.1, getA_setA_self]
    · rw [List.filter_cons_of_neg (by simpa using hcond)]
      have hstep : (if pyStrip p.2 ≠ "" then
          setA m (lowerStr p.1) p.2 else m) = m ∨
          (lowerStr p.1 ≠ k ∧ (if pyStrip p.2 ≠ "" then
            setA m (lowerStr p.1) p.2 else m) =
            setA m (lowerStr p.1) p.2) := by
        by_cases hb : pyStrip p.2 ≠ ""
        · refine Or.inr ⟨?_, by rw [if_pos hb]⟩
          intro hkk
          exact hcond ⟨hkk, hb⟩
        · exact Or.inl (by rw [if_neg hb])
      rcases hstep with hstep | ⟨hne, hstep⟩
      · rw [hstep]
      · rw [hstep, getA_setA_ne _ _ _ _ hne]

/-- Every value stored by the attribute-population loop is non-blank
(given a starting accumulator with non-blank values). -/
theorem buildAttrsFrom_nonblank (pairs : List (String × String))
    (m : AttrMap) (hm : ∀ kv ∈ m, pyStrip kv.2 ≠ "") :
    ∀ kv ∈ pairs.foldl (fun attrs p =>
        if pyStrip p.2 ≠ "" then setA attrs (lowerStr p.1) p.2 else attrs)
      m, pyStrip kv.2 ≠ "" := by
  induction pairs generalizing m with
  | nil => exact hm
  | cons p rest ih =>
    simp only [List.foldl_cons]
    apply ih
    intro kv hkv
    by_cases hb : pyStrip p.2 ≠ ""
    · rw [if_pos hb] at hkv
      rcases mem_setA _ _ _ _ hkv with hkv | hkv
      · rw [hkv]
        exact hb
      · exact hm kv hkv
    · rw [if_neg hb] at hkv
      exact hm kv hkv

/-- Claim C6, counterexample: the parser stores the raw attribute
value, not the trimmed one — `title=" x "` is stored as `" x "`, which
differs from its trim `"x"`. -/
theorem c6_counterexample :
    _parse_outer_html (some "<div title=\" x \">") =
      (some "div", [("title", " x ")]) ∧
    pyStrip " x " = "x" ∧ (" x " : String) ≠ "x" :=
  ⟨by decide, by decide, by decide⟩

/-- Claim C6, amended: the parser returns the lowercased first tag name
and an attribute map whose keys are the lowercased attribute names and
whose values are the raw (untrimmed) attribute values; a pair is kept
only when its value is non-blank after trimming, and a later duplicate
name overwrites an earlier one (last write wins, in place).  The three
parts: every stored value is non-blank; lookup in the populated map is
the raw value of the last relevant scanned pair; and a concrete parse
demonstrating lowercasing, blank-dropping and in-place overwrite. -/
theorem c6_attrs_raw_lastwins :
    (∀ (s : Option String) (kv : String × String),
        kv ∈ (_parse_outer_html s).2 → pyStrip kv.2 ≠ "") ∧
    (∀ (pairs : List (String × String)) (k : String),
        getA? (buildAttrs pairs) k =
          match (pairs.filter fun p =>
              lowerStr p.1 = k ∧ pyStrip p.2 ≠ "").getLast? with
          | some q => some q.2
          | none => none) ∧
    _parse_outer_html (some "<DIV Title=' x ' TITLE='y' alt='  '>") =
      (some "div", [("title", "y")]) := by
  refine ⟨?_, ?_, by decide⟩
  · intro s kv hkv
    revert hkv
    simp only [_parse_outer_html]
    split
    · simp
    · split
      · simp
      · intro hkv
        exact buildAttrsFrom_nonblank _ [] (by simp) kv hkv
  · intro pairs k
    rw [show buildAttrs pairs = pairs.foldl (fun attrs p =>
        if pyStrip p.2 ≠ "" then setA attrs (lowerStr p.1) p.2 else attrs)
      [] from rfl, getA_buildAttrsFrom]
    cases (pairs.filter fun p =>
        lowerStr p.1 = k ∧ pyStrip p.2 ≠ "").getLast? with
    | some q => rfl
    | none => simp [getA?]

/-- Witness for C6 (amended): a stored attribute value is non-blank,
applied at a concrete parse. -/
theorem c6_witness :
    (("href", "u") ∈ (_parse_outer_html (some "<a href='u'>")).2) ∧
    pyStrip (("href", "u") : String × String).2 ≠ "" :=
  ⟨by decide,
   c6_attrs_raw_lastwins.1 (some "<a href='u'>") ("href", "u") (by decide)⟩

end XG
